import Mathlib

/-!
Verification of `javascript/webdriver/atoms/element.js` (selenium atoms).

The file shallowly embeds the two non-trivial algorithms of the module:
  * `getAttribute` — the attribute/property resolution procedure
    (`webdriver.atoms.element.getAttribute`);
  * `translate` / `typeKeys` — the key-sequence segmentation procedure and
    the orchestrator (`webdriver.atoms.element.type`).

DOM access is an external collaborator in the source (`bot.dom.*`); an
element is therefore embedded as the record of the answers the DOM adapter
would give to each read the resolver can perform.  JavaScript values read
from a property are embedded by `JSValue`, with JS truthiness and string
coercion made explicit.  The only adapter call the source guards with a
`try`/`catch` is `bot.dom.getProperty`; the embedding gives the element a
`propThrows` predicate saying on which property names that read raises, and
the resolver returns `Except Unit JSValue`, erroring exactly where the
source would let the exception propagate.
-/

/-- A JavaScript value as seen by the resolver: the source reads DOM
properties (`bot.dom.getProperty`) which may be `undefined`, `null`, a
boolean, a number, a string, or a structured object. Numbers are embedded
as integers (no claim here depends on float formatting). -/
inductive JSValue : Type where
  | undefined : JSValue
  | null : JSValue
  | boolean : Bool → JSValue
  | num : Int → JSValue
  | str : String → JSValue
  | obj : JSValue
deriving DecidableEq, Repr

/-- Lower-casing of a name, as JavaScript `toLowerCase()` acts on the
ASCII attribute names this module compares (defined over the character
list so that it evaluates by kernel reduction). -/
def jsLower (s : String) : String := String.mk (s.data.map Char.toLower)

/-- JavaScript truthiness of a value (`value ?`): `undefined`, `null`,
`false`, `0` and the empty string are falsy, everything else truthy. -/
def truthy : JSValue → Bool
  | JSValue.undefined => false
  | JSValue.null => false
  | JSValue.boolean b => b
  | JSValue.num n => n != 0
  | JSValue.str s => s != ""
  | JSValue.obj => true

/-- Embedding of `goog.isString`. -/
def isStringVal : JSValue → Bool
  | JSValue.str _ => true
  | _ => false

/-- Embedding of `goog.isObject` (true for structured values, false for primitives,
`null` and `undefined`). -/
def isObjectVal : JSValue → Bool
  | JSValue.obj => true
  | _ => false

/-- Embedding of `goog.isDefAndNotNull`. -/
def isDefAndNotNull : JSValue → Bool
  | JSValue.undefined => false
  | JSValue.null => false
  | _ => true

/-- JavaScript string coercion (`value.toString()` / `value + ''`). -/
def jsToString : JSValue → String
  | JSValue.undefined => "undefined"
  | JSValue.null => "null"
  | JSValue.boolean b => if b then "true" else "false"
  | JSValue.num n => toString n
  | JSValue.str s => s
  | JSValue.obj => "[object Object]"

/-- An element, embedded as the answers the DOM adapter gives to each read
the resolver performs:
  * `attrs name` — `bot.dom.getAttribute(element, name)` (a string or null);
  * `props name` — `bot.dom.getProperty(element, name)`;
  * `propThrows name` — whether `bot.dom.getProperty(element, name)` raises;
  * `style` — `element.style`, and `cssText` its `cssText` when `style`
    is a truthy non-string;
  * `selectable` / `selected` — `bot.dom.isSelectable` / `bot.dom.isSelected`;
  * `isAnchor` / `isImage` — `bot.dom.isElement(element, TagName.A / IMG)`. -/
structure DOMElement : Type where
  attrs : String → Option String
  props : String → JSValue
  propThrows : String → Bool
  style : JSValue
  cssText : String
  selectable : Bool
  selected : Bool
  isAnchor : Bool
  isImage : Bool

/-- Embedding of `webdriver.atoms.element.PROPERTY_ALIASES_`, looked up (as in the
source, line 178) with the attribute name in its original casing. -/
def PROPERTY_ALIASES (a : String) : Option String :=
  if a = "class" then some "className"
  else if a = "readonly" then some "readOnly"
  else none

/-- Embedding of `webdriver.atoms.element.BOOLEAN_PROPERTIES_` (all lower-case). -/
def BOOLEAN_PROPERTIES : List String :=
  ["async", "autofocus", "autoplay", "checked", "compact", "complete",
   "controls", "declare", "defaultchecked", "defaultselected", "defer",
   "disabled", "draggable", "ended", "formnovalidate", "hidden",
   "indeterminate", "iscontenteditable", "ismap", "itemscope", "loop",
   "multiple", "muted", "nohref", "noresize", "noshade", "novalidate",
   "nowrap", "open", "paused", "pubdate", "readonly", "required",
   "reversed", "scoped", "seamless", "seeking", "selected", "spellcheck",
   "truespeed", "willvalidate"]

/-- Embedding of `webdriver.atoms.element.getAttribute`, lines
129–211 of the source, translated guard by guard:
  * lowercase the requested name for all comparisons;
  * the `style` special case (lines 133–141);
  * the `selected`/`checked`-on-selectable special case (143–146);
  * the anchor-`href` / image-`src` special case (151–163): read the raw
    attribute under the lower-cased name; when truthy (present and
    non-empty) return the property instead;
  * the `spellcheck` special case (165–176): a raw attribute equal
    (case-insensitively) to "false" or "true" is returned as that string,
    otherwise the property value is coerced with `+ ''`;
  * the boolean-attribute case (178–184): "true" when the raw attribute
    (original casing) is non-null — short-circuiting the property read —
    or the property (alias-resolved name) is truthy, else null;
  * the general case (186–210): read the property under the alias-resolved
    name, swallowing a raising read (the only guarded adapter call); fall
    back to the raw attribute (original casing) when the property is
    undefined, null, or an object; stringify a present value, else null. -/
def getAttribute (e : DOMElement) (attr : String) : Except Unit JSValue :=
  if jsLower attr = "style" then
    (if truthy e.style && !(isStringVal e.style) then Except.ok (JSValue.str e.cssText)
     else Except.ok e.style)
  else if (jsLower attr = "selected" ∨ jsLower attr = "checked") ∧ e.selectable = true then
    (if e.selected then Except.ok (JSValue.str "true") else Except.ok JSValue.null)
  else if (e.isImage = true ∧ jsLower attr = "src") ∨ (e.isAnchor = true ∧ jsLower attr = "href") then
    (match e.attrs (jsLower attr) with
     | some s =>
       if s ≠ "" then
         (if e.propThrows (jsLower attr) then Except.error ()
          else Except.ok (e.props (jsLower attr)))
       else Except.ok (JSValue.str s)
     | none => Except.ok JSValue.null)
  else if jsLower attr = "spellcheck" then
    (match e.attrs (jsLower attr) with
     | some s =>
       if jsLower s = "false" then Except.ok (JSValue.str "false")
       else if jsLower s = "true" then Except.ok (JSValue.str "true")
       else if e.propThrows (jsLower attr) then Except.error ()
       else Except.ok (JSValue.str (jsToString (e.props (jsLower attr))))
     | none =>
       if e.propThrows (jsLower attr) then Except.error ()
       else Except.ok (JSValue.str (jsToString (e.props (jsLower attr)))))
  else if BOOLEAN_PROPERTIES.contains (jsLower attr) then
    (if (e.attrs attr).isSome then Except.ok (JSValue.str "true")
     else if e.propThrows ((PROPERTY_ALIASES attr).getD attr) then Except.error ()
     else if truthy (e.props ((PROPERTY_ALIASES attr).getD attr)) then Except.ok (JSValue.str "true")
     else Except.ok JSValue.null)
  else
    (let property : JSValue :=
       if e.propThrows ((PROPERTY_ALIASES attr).getD attr) then JSValue.undefined
       else e.props ((PROPERTY_ALIASES attr).getD attr)
     let value : JSValue :=
       if !(isDefAndNotNull property) || isObjectVal property then
         (match e.attrs attr with
          | some s => JSValue.str s
          | none => JSValue.null)
       else property
     if isDefAndNotNull value then Except.ok (JSValue.str (jsToString value))
     else Except.ok JSValue.null)

instance {ε α : Type} [DecidableEq ε] [DecidableEq α] : DecidableEq (Except ε α) := by
  intro x y
  cases x with
  | error a =>
    cases y with
    | error b =>
      exact if h : a = b then isTrue (by rw [h]) else isFalse (by intro hc; cases hc; exact h rfl)
    | ok b => exact isFalse (by intro hc; cases hc)
  | ok a =>
    cases y with
    | error b => exact isFalse (by intro hc; cases hc)
    | ok b =>
      exact if h : a = b then isTrue (by rw [h]) else isFalse (by intro hc; cases hc; exact h rfl)

/-- An element all of whose adapter reads come back absent/false. -/
def blankElem : DOMElement :=
  ⟨fun _ => none, fun _ => JSValue.undefined, fun _ => false,
   JSValue.null, "", false, false, false, false⟩

/-- An anchor whose raw `href` attribute holds a relative path and whose
`href` property holds the browser-normalized absolute URL. -/
def anchorElem : DOMElement :=
  ⟨fun s => if s = "href" then some "page.html" else none,
   fun s => if s = "href" then JSValue.str "http://example.com/page.html"
     else JSValue.undefined,
   fun _ => false, JSValue.null, "", false, false, true, false⟩

/-- An element whose property map is case-sensitive, as JavaScript
property access is: only the exact key `readOnly` holds a truthy value. -/
def caseSensElem : DOMElement :=
  ⟨fun _ => none,
   fun s => if s = "readOnly" then JSValue.boolean true else JSValue.undefined,
   fun _ => false, JSValue.null, "", false, false, false, false⟩

/-- An element whose attribute and property reads are case-insensitive
(they factor through lower-casing), with the class attribute text and the
`className` property deliberately distinct. -/
def caseBlindElem : DOMElement :=
  ⟨fun s => if jsLower s = "class" then some "bar" else none,
   fun s => if jsLower s = "classname" then JSValue.str "foo" else JSValue.undefined,
   fun _ => false, JSValue.null, "", false, false, false, false⟩


/-- A logical keyboard key from the `bot.Keyboard.Keys` enumeration, as far
as `webdriver.atoms.element.type` can produce one (the targets of
`JSON_TO_KEY_MAP` plus the `ENTER`/`TAB`/`BACKSPACE` aliases). -/
inductive BotKey : Type where
  | BACKSPACE | TAB | ENTER | SHIFT | CONTROL | ALT | PAUSE | ESC | SPACE
  | PAGE_UP | PAGE_DOWN | END | HOME | LEFT | UP | RIGHT | DOWN
  | INSERT | DELETE | SEMICOLON | EQUALS
  | NUM_ZERO | NUM_ONE | NUM_TWO | NUM_THREE | NUM_FOUR
  | NUM_FIVE | NUM_SIX | NUM_SEVEN | NUM_EIGHT | NUM_NINE
  | NUM_MULTIPLY | NUM_PLUS | NUM_MINUS | NUM_PERIOD | NUM_DIVISION
  | SEPARATOR
  | F1 | F2 | F3 | F4 | F5 | F6 | F7 | F8 | F9 | F10 | F11 | F12
  | META
deriving DecidableEq, Repr

/-- An entry of a key batch: either a literal character pushed verbatim, or
a symbolic `bot.Keyboard.Keys` value. -/
inductive LogicalKey : Type where
  | ch : Char → LogicalKey
  | key : BotKey → LogicalKey
deriving DecidableEq, Repr

/-- One record of `convertedSequences` in `webdriver.atoms.element.type`:
a `persist` flag and the ordered keys of the batch. -/
structure KeyBatch : Type where
  persist : Bool
  keys : List LogicalKey
deriving DecidableEq, Repr

/-- The failure of the translation: `throw Error('Unsupported WebDriver
key: ...')`, carrying the unmapped code point. -/
inductive TranslateError : Type where
  | unsupportedKey : Char → TranslateError
deriving DecidableEq, Repr

/-- Embedding of `isWebDriverKey` (source lines 367–369): the reserved protocol
codepoint range U+E000–U+E03D inclusive. -/
def isWebDriverKey (c : Char) : Bool :=
  '\uE000' ≤ c && c ≤ '\uE03D'

/-- Embedding of `webdriver.atoms.element.type.JSON_TO_KEY_MAP_` (source lines
378–437).  `some none` is the entry `map[key.NULL] = null`; `some (some k)`
an entry mapping to a `bot.Keyboard.Keys` value; `none` means the code has
no entry (`undefined`), which makes `type` throw.

Modelled from the spec: the numeric codepoints of the `webdriver.Key`
constants live in `javascript/webdriver/key.js`, which is not under the
sources provided; the assignments below use the JSON wire protocol
codepoints that file encodes (NULL = U+E000, BACK_SPACE = U+E003, …,
META = U+E03D), which is also the reserved range `isWebDriverKey` fixes.
The codes the source never assigns (U+E001 CANCEL, U+E002 HELP,
U+E005 CLEAR, U+E02A–U+E030) are absent from the map. -/
def JSON_TO_KEY_MAP (c : Char) : Option (Option BotKey) :=
  match c with
  | '\uE000' => some none
  | '\uE003' => some (some BotKey.BACKSPACE)
  | '\uE004' => some (some BotKey.TAB)
  | '\uE006' => some (some BotKey.ENTER)
  | '\uE007' => some (some BotKey.ENTER)
  | '\uE008' => some (some BotKey.SHIFT)
  | '\uE009' => some (some BotKey.CONTROL)
  | '\uE00A' => some (some BotKey.ALT)
  | '\uE00B' => some (some BotKey.PAUSE)
  | '\uE00C' => some (some BotKey.ESC)
  | '\uE00D' => some (some BotKey.SPACE)
  | '\uE00E' => some (some BotKey.PAGE_UP)
  | '\uE00F' => some (some BotKey.PAGE_DOWN)
  | '\uE010' => some (some BotKey.END)
  | '\uE011' => some (some BotKey.HOME)
  | '\uE012' => some (some BotKey.LEFT)
  | '\uE013' => some (some BotKey.UP)
  | '\uE014' => some (some BotKey.RIGHT)
  | '\uE015' => some (some BotKey.DOWN)
  | '\uE016' => some (some BotKey.INSERT)
  | '\uE017' => some (some BotKey.DELETE)
  | '\uE018' => some (some BotKey.SEMICOLON)
  | '\uE019' => some (some BotKey.EQUALS)
  | '\uE01A' => some (some BotKey.NUM_ZERO)
  | '\uE01B' => some (some BotKey.NUM_ONE)
  | '\uE01C' => some (some BotKey.NUM_TWO)
  | '\uE01D' => some (some BotKey.NUM_THREE)
  | '\uE01E' => some (some BotKey.NUM_FOUR)
  | '\uE01F' => some (some BotKey.NUM_FIVE)
  | '\uE020' => some (some BotKey.NUM_SIX)
  | '\uE021' => some (some BotKey.NUM_SEVEN)
  | '\uE022' => some (some BotKey.NUM_EIGHT)
  | '\uE023' => some (some BotKey.NUM_NINE)
  | '\uE024' => some (some BotKey.NUM_MULTIPLY)
  | '\uE025' => some (some BotKey.NUM_PLUS)
  | '\uE026' => some (some BotKey.SEPARATOR)
  | '\uE027' => some (some BotKey.NUM_MINUS)
  | '\uE028' => some (some BotKey.NUM_PERIOD)
  | '\uE029' => some (some BotKey.NUM_DIVISION)
  | '\uE031' => some (some BotKey.F1)
  | '\uE032' => some (some BotKey.F2)
  | '\uE033' => some (some BotKey.F3)
  | '\uE034' => some (some BotKey.F4)
  | '\uE035' => some (some BotKey.F5)
  | '\uE036' => some (some BotKey.F6)
  | '\uE037' => some (some BotKey.F7)
  | '\uE038' => some (some BotKey.F8)
  | '\uE039' => some (some BotKey.F9)
  | '\uE03A' => some (some BotKey.F10)
  | '\uE03B' => some (some BotKey.F11)
  | '\uE03C' => some (some BotKey.F12)
  | '\uE03D' => some (some BotKey.META)
  | _ => none

/-- The handling of one raw key (the body of the inner `forEach` of
`webdriver.atoms.element.type`, lines 321–359).  The state is the pair of
the already-closed batches and the current batch (in the source the
current batch is always the last element of `convertedSequences`; here it
is carried separately and appended at the end).  On the null-sentinel
entry the current batch is closed; with `p` (persist) set, the freshly
started batch is itself forced to `persist = false`, closed at once, and
followed by another fresh batch.  An in-range code with no map entry
throws. -/
def processKey (p : Bool) (st : List KeyBatch × KeyBatch) (c : Char) :
    Except TranslateError (List KeyBatch × KeyBatch) :=
  if isWebDriverKey c then
    match JSON_TO_KEY_MAP c with
    | some none =>
      if p then Except.ok (st.1 ++ [st.2, ⟨false, []⟩], ⟨p, []⟩)
      else Except.ok (st.1 ++ [st.2], ⟨p, []⟩)
    | some (some k) => Except.ok (st.1, ⟨st.2.persist, st.2.keys ++ [LogicalKey.key k]⟩)
    | none => Except.error (TranslateError.unsupportedKey c)
  else if c = '\n' then Except.ok (st.1, ⟨st.2.persist, st.2.keys ++ [LogicalKey.key BotKey.ENTER]⟩)
  else if c = '\t' then Except.ok (st.1, ⟨st.2.persist, st.2.keys ++ [LogicalKey.key BotKey.TAB]⟩)
  else if c = '\x08' then Except.ok (st.1, ⟨st.2.persist, st.2.keys ++ [LogicalKey.key BotKey.BACKSPACE]⟩)
  else Except.ok (st.1, ⟨st.2.persist, st.2.keys ++ [LogicalKey.ch c]⟩)

/-- Processing of a list of raw keys in order; a throw from `processKey`
aborts the remainder, as the exception does in the source. -/
def processChars (p : Bool) : List Char → List KeyBatch × KeyBatch →
    Except TranslateError (List KeyBatch × KeyBatch)
  | [], st => Except.ok st
  | c :: cs, st =>
    match processKey p st c with
    | Except.ok st' => processChars p cs st'
    | Except.error e => Except.error e

/-- The flat stream of raw keys: every character of every sequence, in
order (`keys.forEach` over `sequence.split('')`). -/
def rawKeys (seqs : List String) : List Char :=
  (seqs.map String.data).flatten

/-- The segmentation performed by `webdriver.atoms.element.type` (lines
302–360): one initial batch with `persist = persistModifiers`, pushed
before any key is read, then the processing of every raw key. -/
def translateKeys (seqs : List String) (p : Bool) : Except TranslateError (List KeyBatch) :=
  match processChars p (rawKeys seqs) ([], ⟨p, []⟩) with
  | Except.ok st => Except.ok (st.1 ++ [st.2])
  | Except.error e => Except.error e

/-- The observable behaviour of the executor loop: the ordered list of
calls made to the keyboard-action executor, and the error of the failing
call, if any. -/
structure ExecTrace (ε : Type) : Type where
  calls : List (List LogicalKey × Bool)
  failure : Option ε
deriving DecidableEq, Repr

/-- The final loop of `webdriver.atoms.element.type` (lines 362–365):
`bot.action.type` is invoked once per batch with the batch's keys and
persist flag; an exception stops the loop. -/
def execBatches {ε : Type} (exec : List LogicalKey → Bool → Except ε Unit) :
    List KeyBatch → ExecTrace ε
  | [] => ⟨[], none⟩
  | b :: bs =>
    match exec b.keys b.persist with
    | Except.error e => ⟨[(b.keys, b.persist)], some e⟩
    | Except.ok _ =>
      let r := execBatches exec bs
      ⟨(b.keys, b.persist) :: r.calls, r.failure⟩

/-- Embedding of `webdriver.atoms.element.type` end to end: translate, then drive the
executor over the batches.  A translation error aborts before any executor
call; an executor error is surfaced unchanged. -/
def typeKeys {ε : Type} (exec : List LogicalKey → Bool → Except ε Unit)
    (seqs : List String) (p : Bool) :
    List (List LogicalKey × Bool) × Option (TranslateError ⊕ ε) :=
  match translateKeys seqs p with
  | Except.error err => ([], some (Sum.inl err))
  | Except.ok batches =>
    let r := execBatches exec batches
    (r.calls, r.failure.map Sum.inr)

example : getAttribute blankElem "disabled" = Except.ok JSValue.null := by decide
example : getAttribute blankElem "spellcheck" = Except.ok (JSValue.str "undefined") := by decide
example : getAttribute blankElem "id" = Except.ok JSValue.null := by decide
example : translateKeys ["\uE000"] true =
    Except.ok [⟨true, []⟩, ⟨false, []⟩, ⟨true, []⟩] := by decide
example : translateKeys ["a\uE000"] false =
    Except.ok [⟨false, [LogicalKey.ch 'a']⟩, ⟨false, []⟩] := by decide
example : translateKeys ["\uE001"] false =
    Except.error (TranslateError.unsupportedKey '\uE001') := by decide
example : translateKeys ["\n\t"] false =
    Except.ok [⟨false, [LogicalKey.key BotKey.ENTER, LogicalKey.key BotKey.TAB]⟩] := by decide

theorem rawKeys_nil_of_empty (seqs : List String) (h : ∀ s ∈ seqs, s = "") :
    rawKeys seqs = [] := by
  induction seqs with
  | nil => rfl
  | cons s rest ih =>
    have hs : s = "" := h s (List.mem_cons_self s rest)
    have hr : rawKeys rest = [] := ih (fun t ht => h t (List.mem_cons_of_mem _ ht))
    subst hs
    simp only [rawKeys, List.map_cons, List.flatten_cons] at hr ⊢
    simpa using hr

/-- Claim C2: each release-modifiers (null sentinel) code closes the
current batch and starts a new one; with `persistModifiers = true` the new
batch is forced to `persist = false` and immediately followed by another
batch with the requested persistence, so a lone release code yields three
batches with persist flags (true, false, true); `"a"` followed by a
release code with `persistModifiers = false` yields exactly the two
batches `[{persist:false, keys:["a"]}, {persist:false, keys:[]}]`; and
consecutive release codes each produce their own expansion with no
deduplication. -/
theorem translate_release_expansion :
    translateKeys ["\uE000"] true =
      Except.ok [⟨true, []⟩, ⟨false, []⟩, ⟨true, []⟩]
    ∧ translateKeys ["a\uE000"] false =
      Except.ok [⟨false, [LogicalKey.ch 'a']⟩, ⟨false, []⟩]
    ∧ translateKeys ["\uE000\uE000"] true =
      Except.ok [⟨true, []⟩, ⟨false, []⟩, ⟨true, []⟩, ⟨false, []⟩, ⟨true, []⟩] :=
  ⟨by decide, by decide, by decide⟩

/-- Claim C7: an input with zero raw keys — the empty sequence list, or a
list of empty strings — yields exactly one batch, with an empty key list
and with `persist` equal to the requested `persistModifiers` value. -/
theorem translate_empty_input (seqs : List String) (p : Bool)
    (h : ∀ s ∈ seqs, s = "") :
    translateKeys seqs p = Except.ok [⟨p, []⟩] := by
  unfold translateKeys
  rw [rawKeys_nil_of_empty seqs h]
  rfl

/-- Witness for C7 at the empty sequence list. -/
theorem translate_empty_input_witness :
    translateKeys [] true = Except.ok [⟨true, []⟩] :=
  translate_empty_input [] true (fun s hs => absurd hs (List.not_mem_nil s))

/-- Claim C8: `resolve` is idempotent and deterministic — in this
embedding the resolver is a pure function of the element handle (which
records the answers the DOM adapter gives to every read) and the
requested name, holding no mutable state, so two calls with the same
arguments and the same adapter answers return the same value. -/
theorem getAttribute_deterministic (e : DOMElement) (a : String) :
    getAttribute e a = getAttribute e a := rfl

theorem processKey_error_char (p : Bool) (st : List KeyBatch × KeyBatch) (c : Char)
    (e : TranslateError) (h : processKey p st c = Except.error e) :
    isWebDriverKey c = true ∧ JSON_TO_KEY_MAP c = none ∧
      e = TranslateError.unsupportedKey c := by
  unfold processKey at h
  by_cases hw : isWebDriverKey c = true
  · rw [if_pos hw] at h
    cases hm : JSON_TO_KEY_MAP c with
    | none =>
      rw [hm] at h
      injection h with h'
      exact ⟨hw, rfl, h'.symm⟩
    | some o =>
      cases o with
      | none =>
        rw [hm] at h
        by_cases hp : p = true
        · rw [if_pos hp] at h; exact Except.noConfusion h
        · rw [if_neg hp] at h; exact Except.noConfusion h
      | some k => rw [hm] at h; exact Except.noConfusion h
  · rw [if_neg hw] at h
    split_ifs at h

theorem processKey_ok_of_good (p : Bool) (st : List KeyBatch × KeyBatch) (c : Char)
    (h : ¬(isWebDriverKey c = true ∧ JSON_TO_KEY_MAP c = none)) :
    ∃ st', processKey p st c = Except.ok st' := by
  unfold processKey
  by_cases hw : isWebDriverKey c = true
  · rw [if_pos hw]
    cases hm : JSON_TO_KEY_MAP c with
    | none => exact absurd ⟨hw, hm⟩ h
    | some o =>
      cases o with
      | none =>
        by_cases hp : p = true
        · rw [if_pos hp]; exact ⟨_, rfl⟩
        · rw [if_neg hp]; exact ⟨_, rfl⟩
      | some k => exact ⟨_, rfl⟩
  · rw [if_neg hw]
    split_ifs <;> exact ⟨_, rfl⟩

theorem processKey_error_of_bad (p : Bool) (st : List KeyBatch × KeyBatch) (c : Char)
    (hw : isWebDriverKey c = true) (hm : JSON_TO_KEY_MAP c = none) :
    processKey p st c = Except.error (TranslateError.unsupportedKey c) := by
  unfold processKey
  rw [if_pos hw, hm]

theorem processChars_error_mem (p : Bool) :
    ∀ (cs : List Char) (st : List KeyBatch × KeyBatch) (e : TranslateError),
      processChars p cs st = Except.error e →
      ∃ c ∈ cs, isWebDriverKey c = true ∧ JSON_TO_KEY_MAP c = none ∧
        e = TranslateError.unsupportedKey c := by
  intro cs
  induction cs with
  | nil => intro st e h; exact Except.noConfusion h
  | cons c cs ih =>
    intro st e h
    unfold processChars at h
    cases hk : processKey p st c with
    | error e' =>
      rw [hk] at h
      injection h with h'
      obtain ⟨hw, hm, he⟩ := processKey_error_char p st c e' hk
      exact ⟨c, List.mem_cons_self c cs, hw, hm, h' ▸ he⟩
    | ok st' =>
      rw [hk] at h
      obtain ⟨c', hmem, hw, hm, he⟩ := ih st' e h
      exact ⟨c', List.mem_cons_of_mem c hmem, hw, hm, he⟩

theorem processChars_ok_of_good (p : Bool) :
    ∀ (cs : List Char) (st : List KeyBatch × KeyBatch),
      (∀ c ∈ cs, ¬(isWebDriverKey c = true ∧ JSON_TO_KEY_MAP c = none)) →
      ∃ st', processChars p cs st = Except.ok st' := by
  intro cs
  induction cs with
  | nil => intro st _; exact ⟨st, rfl⟩
  | cons c cs ih =>
    intro st h
    obtain ⟨st1, h1⟩ := processKey_ok_of_good p st c (h c (List.mem_cons_self c cs))
    obtain ⟨st2, h2⟩ := ih st1 (fun x hx => h x (List.mem_cons_of_mem c hx))
    refine ⟨st2, ?_⟩
    unfold processChars
    rw [h1]
    exact h2

theorem processChars_error_of_bad (p : Bool) :
    ∀ (cs : List Char) (st : List KeyBatch × KeyBatch) (c : Char),
      c ∈ cs → isWebDriverKey c = true → JSON_TO_KEY_MAP c = none →
      ∃ e, processChars p cs st = Except.error e := by
  intro cs
  induction cs with
  | nil => intro st c hc; exact absurd hc (List.not_mem_nil c)
  | cons d ds ih =>
    intro st c hc hw hm
    cases hk : processKey p st d with
    | error e => exact ⟨e, by unfold processChars; rw [hk]⟩
    | ok st' =>
      rcases List.mem_cons.mp hc with hcd | hcs
      · subst hcd
        rw [processKey_error_of_bad p st c hw hm] at hk
        exact Except.noConfusion hk
      · obtain ⟨e, he⟩ := ih st' c hcs hw hm
        exact ⟨e, by unfold processChars; rw [hk]; exact he⟩

/-- Claim C4: translation fails with an UnsupportedKey error if and only
if some raw key of the input lies in the reserved protocol range
U+E000–U+E03D and has no entry in the key-code map; the error names an
unmapped in-range code point of the input; characters outside the range
never cause the error; and the error aborts the whole translate/type call
— `typeKeys` then makes no executor call at all. -/
theorem translate_unsupported_key (seqs : List String) (p : Bool) :
    ((∃ e, translateKeys seqs p = Except.error e) ↔
      ∃ c ∈ rawKeys seqs, isWebDriverKey c = true ∧ JSON_TO_KEY_MAP c = none)
    ∧ (∀ e, translateKeys seqs p = Except.error e →
        ∃ c ∈ rawKeys seqs, isWebDriverKey c = true ∧ JSON_TO_KEY_MAP c = none ∧
          e = TranslateError.unsupportedKey c)
    ∧ (∀ (ε : Type) (exec : List LogicalKey → Bool → Except ε Unit) (e : TranslateError),
        translateKeys seqs p = Except.error e →
        typeKeys exec seqs p = ([], some (Sum.inl e))) := by
  have herr : ∀ e, translateKeys seqs p = Except.error e →
      processChars p (rawKeys seqs) ([], ⟨p, []⟩) = Except.error e := by
    intro e he
    unfold translateKeys at he
    cases hpc : processChars p (rawKeys seqs) ([], ⟨p, []⟩) with
    | error e' => rw [hpc] at he; injection he with h'; rw [← h']
    | ok st => rw [hpc] at he; exact Except.noConfusion he
  refine ⟨⟨?_, ?_⟩, ?_, ?_⟩
  · rintro ⟨e, he⟩
    obtain ⟨c, hmem, hw, hm, _⟩ := processChars_error_mem p (rawKeys seqs) _ e (herr e he)
    exact ⟨c, hmem, hw, hm⟩
  · rintro ⟨c, hmem, hw, hm⟩
    obtain ⟨e, he⟩ := processChars_error_of_bad p (rawKeys seqs) ([], ⟨p, []⟩) c hmem hw hm
    exact ⟨e, by unfold translateKeys; rw [he]⟩
  · intro e he
    exact processChars_error_mem p (rawKeys seqs) _ e (herr e he)
  · intro ε exec e he
    unfold typeKeys
    rw [he]

/-- Witness for C4: the protocol code U+E001 (CANCEL) is in the reserved
range but unmapped, so translating it fails. -/
theorem translate_unsupported_key_witness :
    ∃ e, translateKeys ["\uE001"] false = Except.error e :=
  (translate_unsupported_key ["\uE001"] false).1.mpr
    ⟨'\uE001', by decide, by decide, by decide⟩

theorem processKey_invariant (p : Bool) (st st' : List KeyBatch × KeyBatch) (c : Char)
    (h : processKey p st c = Except.ok st')
    (hinv : st.2.persist = p ∧ ∀ b ∈ st.1,
      b.persist = p ∨ (p = true ∧ b.persist = false ∧ b.keys = [])) :
    st'.2.persist = p ∧ ∀ b ∈ st'.1,
      b.persist = p ∨ (p = true ∧ b.persist = false ∧ b.keys = []) := by
  unfold processKey at h
  by_cases hw : isWebDriverKey c = true
  · rw [if_pos hw] at h
    cases hm : JSON_TO_KEY_MAP c with
    | none => rw [hm] at h; exact Except.noConfusion h
    | some o =>
      cases o with
      | none =>
        rw [hm] at h
        by_cases hp : p = true
        · rw [if_pos hp] at h
          injection h with h'
          subst h'
          refine ⟨rfl, ?_⟩
          intro b hb
          rcases List.mem_append.mp hb with hb1 | hb2
          · exact hinv.2 b hb1
          · rcases List.mem_cons.mp hb2 with hb3 | hb4
            · subst hb3; exact Or.inl hinv.1
            · rcases List.mem_cons.mp hb4 with hb5 | hb6
              · subst hb5; exact Or.inr ⟨hp, rfl, rfl⟩
              · exact absurd hb6 (List.not_mem_nil b)
        · rw [if_neg hp] at h
          injection h with h'
          subst h'
          refine ⟨rfl, ?_⟩
          intro b hb
          rcases List.mem_append.mp hb with hb1 | hb2
          · exact hinv.2 b hb1
          · rcases List.mem_cons.mp hb2 with hb3 | hb4
            · subst hb3; exact Or.inl hinv.1
            · exact absurd hb4 (List.not_mem_nil b)
      | some k =>
        rw [hm] at h
        injection h with h'
        subst h'
        exact ⟨hinv.1, hinv.2⟩
  · rw [if_neg hw] at h
    split_ifs at h <;> (injection h with h'; subst h'; exact ⟨hinv.1, hinv.2⟩)

theorem processChars_invariant (p : Bool) :
    ∀ (cs : List Char) (st st' : List KeyBatch × KeyBatch),
      processChars p cs st = Except.ok st' →
      (st.2.persist = p ∧ ∀ b ∈ st.1,
        b.persist = p ∨ (p = true ∧ b.persist = false ∧ b.keys = [])) →
      (st'.2.persist = p ∧ ∀ b ∈ st'.1,
        b.persist = p ∨ (p = true ∧ b.persist = false ∧ b.keys = [])) := by
  intro cs
  induction cs with
  | nil =>
    intro st st' h hinv
    injection h with h'
    subst h'
    exact hinv
  | cons c cs ih =>
    intro st st' h hinv
    unfold processChars at h
    cases hk : processKey p st c with
    | error e => rw [hk] at h; exact Except.noConfusion h
    | ok st1 =>
      rw [hk] at h
      exact ih st1 st' h (processKey_invariant p st st1 c hk hinv)

/-- Claim C10: in the output of the translation, every batch's persist
flag equals the requested `persistModifiers` value except the forced
release batch injected in the middle of a null-key expansion when
`persistModifiers` is true, which has `persist = false` (and an empty key
list); in particular, with `persistModifiers = false` every batch has
`persist = false`. -/
theorem translate_persist_flags (seqs : List String) (p : Bool)
    (batches : List KeyBatch) (h : translateKeys seqs p = Except.ok batches) :
    (∀ b ∈ batches, b.persist = p ∨ (p = true ∧ b.persist = false ∧ b.keys = []))
    ∧ (p = false → ∀ b ∈ batches, b.persist = false) := by
  unfold translateKeys at h
  cases hpc : processChars p (rawKeys seqs) ([], ⟨p, []⟩) with
  | error e => rw [hpc] at h; exact Except.noConfusion h
  | ok st =>
    rw [hpc] at h
    injection h with h'
    subst h'
    have hinv := processChars_invariant p (rawKeys seqs) ([], ⟨p, []⟩) st hpc
      ⟨rfl, fun b hb => absurd hb (List.not_mem_nil b)⟩
    have main : ∀ b ∈ st.1 ++ [st.2],
        b.persist = p ∨ (p = true ∧ b.persist = false ∧ b.keys = []) := by
      intro b hb
      rcases List.mem_append.mp hb with hb1 | hb2
      · exact hinv.2 b hb1
      · rcases List.mem_cons.mp hb2 with hb3 | hb4
        · subst hb3; exact Or.inl hinv.1
        · exact absurd hb4 (List.not_mem_nil b)
    refine ⟨main, ?_⟩
    intro hp b hb
    rcases main b hb with h1 | ⟨h2, _, _⟩
    · rw [h1, hp]
    · rw [hp] at h2; exact Bool.noConfusion h2

/-- Witness for C10: in the translation of `"a"` + release code with
persistence requested, the middle batch of the expansion is the forced
non-persisting empty batch. -/
theorem translate_persist_flags_witness :
    (⟨false, []⟩ : KeyBatch).persist = true ∨
      (true = true ∧ (⟨false, []⟩ : KeyBatch).persist = false ∧
        (⟨false, []⟩ : KeyBatch).keys = []) :=
  (translate_persist_flags ["a"] true
      [⟨true, [LogicalKey.ch 'a']⟩, ⟨false, []⟩, ⟨true, []⟩] (by decide)).1
    ⟨false, []⟩ (by decide)

theorem execBatches_all_ok {ε : Type} (exec : List LogicalKey → Bool → Except ε Unit) :
    ∀ bs : List KeyBatch, (∀ b ∈ bs, exec b.keys b.persist = Except.ok ()) →
      execBatches exec bs = ⟨bs.map (fun b => (b.keys, b.persist)), none⟩ := by
  intro bs
  induction bs with
  | nil => intro _; rfl
  | cons b bs ih =>
    intro h
    have hb : exec b.keys b.persist = Except.ok () := h b (List.mem_cons_self b bs)
    have ht := ih (fun x hx => h x (List.mem_cons_of_mem b hx))
    unfold execBatches
    rw [hb, ht]
    rfl

theorem execBatches_fail {ε : Type} (exec : List LogicalKey → Bool → Except ε Unit) :
    ∀ (bs : List KeyBatch) (i : Nat) (e : ε),
      i < bs.length →
      (∀ b ∈ bs.take i, exec b.keys b.persist = Except.ok ()) →
      exec (bs.getD i ⟨false, []⟩).keys (bs.getD i ⟨false, []⟩).persist = Except.error e →
      execBatches exec bs =
        ⟨(bs.take (i + 1)).map (fun b => (b.keys, b.persist)), some e⟩ := by
  intro bs
  induction bs with
  | nil => intro i e hi; exact absurd hi (by simp)
  | cons b bs ih =>
    intro i e hi hpre hfail
    cases i with
    | zero =>
      rw [List.getD_cons_zero] at hfail
      unfold execBatches
      rw [hfail]
      rfl
    | succ i =>
      have hb : exec b.keys b.persist = Except.ok () := by
        refine hpre b ?_
        rw [List.take_succ_cons]
        exact List.mem_cons_self b (bs.take i)
      have hpre' : ∀ x ∈ bs.take i, exec x.keys x.persist = Except.ok () := by
        intro x hx
        refine hpre x ?_
        rw [List.take_succ_cons]
        exact List.mem_cons_of_mem b hx
      rw [List.getD_cons_succ] at hfail
      have ht := ih i e (by simpa using hi) hpre' hfail
      unfold execBatches
      rw [hb, ht]
      rw [List.take_succ_cons, List.map_cons]

theorem typeKeys_of_ok {ε : Type} (exec : List LogicalKey → Bool → Except ε Unit)
    (seqs : List String) (p : Bool) (batches : List KeyBatch)
    (h : translateKeys seqs p = Except.ok batches) :
    typeKeys exec seqs p =
      ((execBatches exec batches).calls,
        (execBatches exec batches).failure.map Sum.inr) := by
  unfold typeKeys
  rw [h]

/-- Claim C5: `type` invokes the keyboard-action executor exactly once
per batch produced by the translation, strictly in production order,
passing each batch's key list and persist flag; when every call succeeds
the calls are exactly the batch list in order, and when a call fails its
error propagates unchanged and no executor call is made for any later
batch (the calls already made are not undone). -/
theorem type_executes_batches_in_order {ε : Type}
    (exec : List LogicalKey → Bool → Except ε Unit)
    (seqs : List String) (p : Bool) (batches : List KeyBatch)
    (h : translateKeys seqs p = Except.ok batches) :
    ((∀ b ∈ batches, exec b.keys b.persist = Except.ok ()) →
      typeKeys exec seqs p = (batches.map (fun b => (b.keys, b.persist)), none))
    ∧ (∀ (i : Nat) (e : ε), i < batches.length →
        (∀ b ∈ batches.take i, exec b.keys b.persist = Except.ok ()) →
        exec (batches.getD i ⟨false, []⟩).keys
          (batches.getD i ⟨false, []⟩).persist = Except.error e →
        typeKeys exec seqs p =
          ((batches.take (i + 1)).map (fun b => (b.keys, b.persist)),
            some (Sum.inr e))) := by
  constructor
  · intro hok
    rw [typeKeys_of_ok exec seqs p batches h, execBatches_all_ok exec batches hok]
    rfl
  · intro i e hi hpre hfail
    rw [typeKeys_of_ok exec seqs p batches h,
      execBatches_fail exec batches i e hi hpre hfail]
    rfl

/-- Witness for C5: an executor failing on any non-empty key list, driven
over the two batches of `"a"` + release code, is called once, with the
first batch, and its error surfaces. -/
theorem type_executes_batches_in_order_witness :
    typeKeys
      (fun ks (_ : Bool) => if ks.isEmpty then Except.ok () else Except.error (3 : Nat))
      ["a\uE000"] false
      = ([([LogicalKey.ch 'a'], false)], some (Sum.inr 3)) := by
  have h := (type_executes_batches_in_order
      (fun ks (_ : Bool) => if ks.isEmpty then Except.ok () else Except.error (3 : Nat))
      ["a\uE000"] false [⟨false, [LogicalKey.ch 'a']⟩, ⟨false, []⟩] (by decide)).2
      0 3 (by decide) (by intro b hb; rw [List.take_zero] at hb; exact absurd hb (List.not_mem_nil b)) (by decide)
  exact h.trans (by decide)

/-- Claim C1: for every element and attribute name whose lower-cased form
is in the boolean attribute set and which no earlier special case
intercepts (not selected/checked on a selectable element, not spellcheck
— style, href and src are never members), with the corresponding property
readable, resolution returns "true" exactly when the raw attribute is
present (non-null, regardless of its textual value, the empty string
included) or the corresponding property is truthy, and null otherwise;
it never returns the string "false". -/
theorem getAttribute_boolean (e : DOMElement) (a : String)
    (hb : BOOLEAN_PROPERTIES.contains (jsLower a) = true)
    (hsel : ¬((jsLower a = "selected" ∨ jsLower a = "checked") ∧ e.selectable = true))
    (hsp : jsLower a ≠ "spellcheck")
    (hth : e.propThrows ((PROPERTY_ALIASES a).getD a) = false) :
    getAttribute e a =
      Except.ok (if (e.attrs a).isSome || truthy (e.props ((PROPERTY_ALIASES a).getD a))
        then JSValue.str "true" else JSValue.null)
    ∧ getAttribute e a ≠ Except.ok (JSValue.str "false") := by
  have h1 : jsLower a ≠ "style" := by
    intro hx; rw [hx] at hb; exact absurd hb (by decide)
  have h3 : ¬((e.isImage = true ∧ jsLower a = "src") ∨
      (e.isAnchor = true ∧ jsLower a = "href")) := by
    rintro (⟨_, hx⟩ | ⟨_, hx⟩) <;> rw [hx] at hb <;> exact absurd hb (by decide)
  have hmain : getAttribute e a =
      Except.ok (if (e.attrs a).isSome || truthy (e.props ((PROPERTY_ALIASES a).getD a))
        then JSValue.str "true" else JSValue.null) := by
    unfold getAttribute
    rw [if_neg h1, if_neg hsel, if_neg h3, if_neg hsp, if_pos hb]
    cases ha : e.attrs a with
    | some s => simp
    | none =>
      rw [hth]
      cases htr : truthy (e.props ((PROPERTY_ALIASES a).getD a)) <;> simp [htr]
  refine ⟨hmain, ?_⟩
  rw [hmain]
  cases hc : (e.attrs a).isSome || truthy (e.props ((PROPERTY_ALIASES a).getD a)) <;>
    simp [hc]

/-- Claim C3: for an anchor element with requested name "href" and for an
image element with requested name "src", an absent raw attribute resolves
to null, and a present non-empty raw attribute resolves to the property
value (the browser-normalized absolute URL) rather than the literal
attribute text. -/
theorem getAttribute_href_src (e : DOMElement) (a : String)
    (h : (e.isImage = true ∧ jsLower a = "src") ∨
      (e.isAnchor = true ∧ jsLower a = "href")) :
    (e.attrs (jsLower a) = none → getAttribute e a = Except.ok JSValue.null)
    ∧ (∀ s, e.attrs (jsLower a) = some s → s ≠ "" →
        e.propThrows (jsLower a) = false →
        getAttribute e a = Except.ok (e.props (jsLower a))) := by
  have h1 : jsLower a ≠ "style" := by
    rcases h with ⟨_, hx⟩ | ⟨_, hx⟩ <;> rw [hx] <;> decide
  have h2 : ¬((jsLower a = "selected" ∨ jsLower a = "checked") ∧ e.selectable = true) := by
    rcases h with ⟨_, hx⟩ | ⟨_, hx⟩ <;> rw [hx] <;>
      (rintro ⟨hy | hy, _⟩ <;> exact absurd hy (by decide))
  constructor
  · intro hattr
    unfold getAttribute
    rw [if_neg h1, if_neg h2, if_pos h, hattr]
  · intro s hs hne hth
    unfold getAttribute
    rw [if_neg h1, if_neg h2, if_pos h, hs]
    dsimp only
    rw [if_pos hne, hth]
    rfl

/-- Witness for C1 at the name "disabled" on an element whose adapter
reads all come back absent: no attribute and a falsy property resolve to
null (and not to "false"). -/
theorem getAttribute_boolean_witness :
    getAttribute blankElem "disabled" = Except.ok JSValue.null
    ∧ getAttribute blankElem "disabled" ≠ Except.ok (JSValue.str "false") := by
  have h := getAttribute_boolean blankElem "disabled"
    (by decide) (by decide) (by decide) (by decide)
  exact ⟨h.1.trans (by decide), h.2⟩

/-- Witness for C3: on `anchorElem`, resolving "href" returns the
property value (the absolute URL), not the literal attribute text. -/
theorem getAttribute_href_src_witness :
    getAttribute anchorElem "href" =
      Except.ok (JSValue.str "http://example.com/page.html") := by
  have h := (getAttribute_href_src anchorElem "href"
      (Or.inr ⟨rfl, by decide⟩)).2 "page.html" (by decide) (by decide) (by decide)
  exact h.trans (by decide)

theorem getAttribute_spellcheck_reduced (e : DOMElement) (a : String)
    (h : jsLower a = "spellcheck") :
    getAttribute e a =
      (match e.attrs "spellcheck" with
       | some s =>
         if jsLower s = "false" then Except.ok (JSValue.str "false")
         else if jsLower s = "true" then Except.ok (JSValue.str "true")
         else if e.propThrows "spellcheck" then Except.error ()
         else Except.ok (JSValue.str (jsToString (e.props "spellcheck")))
       | none =>
         if e.propThrows "spellcheck" then Except.error ()
         else Except.ok (JSValue.str (jsToString (e.props "spellcheck")))) := by
  unfold getAttribute
  rw [h]
  rw [if_neg (by decide : ¬("spellcheck" = "style"))]
  rw [if_neg (by rintro ⟨hy | hy, _⟩ <;> exact absurd hy (by decide) :
    ¬(("spellcheck" = "selected" ∨ "spellcheck" = "checked") ∧ e.selectable = true))]
  rw [if_neg (by rintro (⟨_, hy⟩ | ⟨_, hy⟩) <;> exact absurd hy (by decide) :
    ¬((e.isImage = true ∧ "spellcheck" = "src") ∨
      (e.isAnchor = true ∧ "spellcheck" = "href")))]
  rw [if_pos rfl]

/-- Claim C9: resolving the name "spellcheck" never yields the null
resolved value: a raw attribute case-insensitively equal to "false" or
"true" is returned as that string, and in every other case (an absent
attribute included) the property value is coerced to its string form, so
an absent (undefined or null) property yields the literal string
"undefined" or "null" rather than null. -/
theorem getAttribute_spellcheck (e : DOMElement) (a : String)
    (h : jsLower a = "spellcheck") :
    getAttribute e a ≠ Except.ok JSValue.null
    ∧ (∀ s, e.attrs "spellcheck" = some s → jsLower s = "false" →
        getAttribute e a = Except.ok (JSValue.str "false"))
    ∧ (∀ s, e.attrs "spellcheck" = some s → jsLower s = "true" →
        getAttribute e a = Except.ok (JSValue.str "true"))
    ∧ ((∀ s, e.attrs "spellcheck" = some s → jsLower s ≠ "false" ∧ jsLower s ≠ "true") →
        e.propThrows "spellcheck" = false →
        getAttribute e a = Except.ok (JSValue.str (jsToString (e.props "spellcheck"))))
    ∧ (e.attrs "spellcheck" = none → e.propThrows "spellcheck" = false →
        e.props "spellcheck" = JSValue.undefined →
        getAttribute e a = Except.ok (JSValue.str "undefined")) := by
  rw [getAttribute_spellcheck_reduced e a h]
  refine ⟨?_, ?_, ?_, ?_, ?_⟩
  · cases hs : e.attrs "spellcheck" with
    | some s =>
      dsimp only
      split_ifs <;> intro hx <;>
        first
        | exact Except.noConfusion hx
        | (injection hx with hx2; exact JSValue.noConfusion hx2)
    | none =>
      dsimp only
      split_ifs <;> intro hx <;>
        first
        | exact Except.noConfusion hx
        | (injection hx with hx2; exact JSValue.noConfusion hx2)
  · intro s hs hf
    rw [hs]
    dsimp only
    rw [if_pos hf]
  · intro s hs ht
    rw [hs]
    dsimp only
    rw [if_neg (by rw [ht]; decide), if_pos ht]
  · intro hother hth
    cases hs : e.attrs "spellcheck" with
    | some s =>
      obtain ⟨hf, ht⟩ := hother s hs
      dsimp only
      rw [if_neg hf, if_neg ht, hth]
      rfl
    | none =>
      dsimp only
      rw [hth]
      rfl
  · intro hs hth hu
    rw [hs]
    dsimp only
    rw [hth]
    rw [hu]
    rfl

/-- Witness for C9: on an element with no spellcheck attribute and an
undefined spellcheck property, resolution returns the literal string
"undefined", not null. -/
theorem getAttribute_spellcheck_witness :
    getAttribute blankElem "spellcheck" ≠ Except.ok JSValue.null
    ∧ getAttribute blankElem "spellcheck" = Except.ok (JSValue.str "undefined") := by
  have h := getAttribute_spellcheck blankElem "spellcheck" (by decide)
  exact ⟨h.1, h.2.2.2.2 rfl rfl rfl⟩

theorem propName_lower (a : String) (h : jsLower a ≠ "class") :
    jsLower ((PROPERTY_ALIASES a).getD a) = jsLower a := by
  unfold PROPERTY_ALIASES
  by_cases h1 : a = "class"
  · subst h1; exact absurd (by decide) h
  · by_cases h2 : a = "readonly"
    · subst h2; decide
    · rw [if_neg h1, if_neg h2]
      rfl

/-- Counterexample to C6 as stated: resolution is not invariant under
re-casing of the requested name.  With a case-sensitive property map
(`readOnly` truthy, every other key undefined — exactly how JavaScript
property access behaves), "readonly" resolves to "true" via the aliased
property key `readOnly` while "READONLY" resolves to null, since the
alias lookup and the property key use the original casing.  And even
against a fully case-insensitive adapter, "class" and "Class" differ,
because only the exact spelling "class" hits the property-alias table
(property key `className` versus `Class`). -/
theorem getAttribute_case_variant_counterexample :
    getAttribute caseSensElem "readonly" ≠ getAttribute caseSensElem "READONLY"
    ∧ getAttribute caseBlindElem "class" ≠ getAttribute caseBlindElem "Class" :=
  ⟨by decide, by decide⟩

/-- Claim C6 (amended): all of the resolver's name comparisons are
performed on the lower-cased form, but the original casing is used for
the property-alias lookup, the fallback property key, and the raw
attribute reads of the boolean and general cases.  Consequently, when the
element's attribute, property and property-failure reads themselves
depend only on the lower-cased key and the requested name is not a casing
variant of "class" (whose alias lookup keys on the exact original
spelling), resolving any two casing variants of a name returns the same
value. -/
theorem getAttribute_case_variant (e : DOMElement) (a b : String)
    (hattrs : ∀ s, e.attrs s = e.attrs (jsLower s))
    (hprops : ∀ s, e.props s = e.props (jsLower s))
    (hthrows : ∀ s, e.propThrows s = e.propThrows (jsLower s))
    (hab : jsLower a = jsLower b)
    (hclass : jsLower a ≠ "class") :
    getAttribute e a = getAttribute e b := by
  have hbclass : jsLower b ≠ "class" := hab ▸ hclass
  have h1 : e.attrs a = e.attrs b := by rw [hattrs a, hattrs b, hab]
  have h2 : e.props ((PROPERTY_ALIASES a).getD a) =
      e.props ((PROPERTY_ALIASES b).getD b) := by
    rw [hprops ((PROPERTY_ALIASES a).getD a), hprops ((PROPERTY_ALIASES b).getD b),
      propName_lower a hclass, propName_lower b hbclass, hab]
  have h3 : e.propThrows ((PROPERTY_ALIASES a).getD a) =
      e.propThrows ((PROPERTY_ALIASES b).getD b) := by
    rw [hthrows ((PROPERTY_ALIASES a).getD a), hthrows ((PROPERTY_ALIASES b).getD b),
      propName_lower a hclass, propName_lower b hbclass, hab]
  unfold getAttribute
  rw [hab, h1, h2, h3]

/-- Witness for the amended C6: against an adapter whose reads are all
constant (hence case-insensitive), "READONLY" and "readonly" resolve to
the same value. -/
theorem getAttribute_case_variant_witness :
    getAttribute blankElem "READONLY" = getAttribute blankElem "readonly" :=
  getAttribute_case_variant blankElem "READONLY" "readonly"
    (fun _ => rfl) (fun _ => rfl) (fun _ => rfl) (by decide) (by decide)
